import Mathlib

/-!
Verification of the quant-trading-system backend against its specification.

Shallow embedding of the relevant Python modules:
* `app/nodes/kline_node.py`        — bar producer cursor and write-buffer flush
* `app/nodes/strategies/base_strategy.py` — strategy runtime message processing
* `app/core/position_manager.py`   — order sizing, open/close positions
* `app/core/task_manager.py`       — task progress updates
* `app/indicators/calculators.py`  — incremental SMA calculator
* `app/models/indicators.py`       — indicator field validators
* `app/core/data_source.py`        — back-test merged data stream
* `app/services/data_integrity.py` — check_and_repair_all keyword interface

Machine floats are modelled as rationals (ℚ); Unix timestamps as integers (ℤ).
The file is organised as definitions first, then theorems.
-/

/-! # Definitions -/

/-! ## Data model (`app/models/market_data.py`, `app/models/indicators.py`) -/

/-- Candlestick data, `KlineData` in `app/models/market_data.py`.
The Python field `open` is a Lean keyword, hence `open_`. -/
structure KlineData where
  symbol : String
  timeframe : String
  timestamp : ℤ
  market_type : String
  open_ : ℚ
  high : ℚ
  low : ℚ
  close : ℚ
  volume : ℚ
deriving DecidableEq

/-- Indicator vector, `IndicatorData` in `app/models/indicators.py`, as stored
after pydantic field validation (every numeric field is `Optional`). -/
structure IndicatorData where
  symbol : String
  timeframe : String
  timestamp : ℤ
  market_type : String
  ma5 : Option ℚ
  ma10 : Option ℚ
  ma20 : Option ℚ
  ma60 : Option ℚ
  ma120 : Option ℚ
  ema12 : Option ℚ
  ema26 : Option ℚ
  rsi14 : Option ℚ
  macd_line : Option ℚ
  macd_signal : Option ℚ
  macd_histogram : Option ℚ
  bb_upper : Option ℚ
  bb_middle : Option ℚ
  bb_lower : Option ℚ
  atr14 : Option ℚ
  volume_ma5 : Option ℚ
deriving DecidableEq

/-- Trading signal, `SignalData` in `app/models/signals.py`; only the fields the
verified code reads are modelled. -/
structure SignalData where
  strategy_name : String
  symbol : String
  timestamp : ℤ
  signal_type : String
  side : String
  price : ℚ
  reason : String
  stop_loss : Option ℚ
  take_profit : Option ℚ
deriving DecidableEq

/-! ## C1/C4 — Bar producer (`app/nodes/kline_node.py`) -/

namespace KlineNode

/-- t3 resolution of `_fetch_incremental`: the memory cursor, falling back to
`db.get_last_kline_time`, then to the current wall-clock time. -/
def resolveT3 (cursor dbLast : Option ℤ) (now : ℤ) : ℤ :=
  match cursor with
  | some t => t
  | none =>
    match dbLast with
    | some t => t
    | none => now

/-- One iteration of `KlineNode._fetch_incremental` for a single
(symbol, timeframe) key, acting on the key's memory-cursor entry.

Inputs per iteration: the current cursor entry (absent before initialisation),
the DB fallback `get_last_kline_time` result, the current wall-clock time, and
the list of klines returned by `exchange.fetch_klines`.  Returns the cursor
entry after the iteration and the list of published klines. -/
def fetch_incremental (cursor : Option ℤ) (dbLast : Option ℤ) (now : ℤ)
    (klines : List KlineData) : Option ℤ × List KlineData :=
  let t3 := resolveT3 cursor dbLast now
  -- `if not klines: return` — the cursor entry is t3 (written on the fallback
  -- path, unchanged otherwise; in both cases the entry now holds t3)
  if klines.isEmpty then (some t3, [])
  else
    -- Filter: only timestamps >= t3 (include updates to the current bar)
    let new_klines := klines.filter (fun k => t3 ≤ k.timestamp)
    match new_klines.getLast? with
    | none => (some t3, [])
    | some last =>
      -- publish new_klines, buffer them, then cursor := latest timestamp
      (some last.timestamp, new_klines)

/-- The sequence of cursor values over an execution: starting cursor followed by
the cursor after each successive production-loop iteration.  Each iteration is
described by its DB fallback value, wall-clock time and fetched klines. -/
def cursorTrace (cursor : Option ℤ) :
    List (Option ℤ × ℤ × List KlineData) → List (Option ℤ)
  | [] => [cursor]
  | (dbLast, now, klines) :: rest =>
      cursor :: cursorTrace (fetch_incremental cursor dbLast now klines).1 rest

/-- Ordering between successive cursor entries: once a cursor value exists it
may only grow (an absent entry is below everything). -/
def cursorLE (a b : Option ℤ) : Prop :=
  ∀ x, a = some x → ∃ y, b = some y ∧ x ≤ y

/-- Observable outcome of one `_flush_buffer` call for one key. -/
structure FlushResult where
  /-- Content of the key's buffer after the call: the extracted items are
  cleared at the start and re-prepended (`extendleft(reversed(...))`) only when
  every attempt failed; items appended concurrently during the call stay at
  the back. -/
  buffer : List KlineData
  /-- Items persisted via `bulk_insert_klines` (empty when all attempts fail). -/
  persisted : List KlineData
  /-- Increment applied to `stats['flush_failures']`. -/
  failureIncrement : ℕ
  /-- Backoff sleeps performed, in seconds, in order. -/
  sleeps : List ℕ
  /-- Number of `bulk_insert_klines` attempts made. -/
  attemptsMade : ℕ
deriving DecidableEq

/-- The retry loop `for attempt in range(max_retries)` of `_flush_buffer`.
`remaining` is the number of loop iterations left (`max_retries - attempt`);
`ok attempt` tells whether the `bulk_insert_klines` call of that attempt
succeeds.  On failure with `attempt < max_retries - 1` (i.e. `remaining > 1`)
the loop sleeps `1 * (attempt + 1)` seconds and retries; on the final failure
it increments the failure counter and re-prepends the items. -/
def flushLoop (items appended : List KlineData) (ok : ℕ → Bool) :
    ℕ → ℕ → List ℕ → FlushResult
  | 0, attempt, sleeps =>
      -- `range` exhausted without running the body (only for max_retries = 0)
      { buffer := appended, persisted := [], failureIncrement := 0,
        sleeps := sleeps, attemptsMade := attempt }
  | 1, attempt, sleeps =>
      if ok attempt then
        { buffer := appended, persisted := items, failureIncrement := 0,
          sleeps := sleeps, attemptsMade := attempt + 1 }
      else
        -- all retries failed: stats['flush_failures'] += 1 and
        -- write_buffer[key].extendleft(reversed(klines_to_write))
        { buffer := items ++ appended, persisted := [], failureIncrement := 1,
          sleeps := sleeps, attemptsMade := attempt + 1 }
  | remaining + 2, attempt, sleeps =>
      if ok attempt then
        { buffer := appended, persisted := items, failureIncrement := 0,
          sleeps := sleeps, attemptsMade := attempt + 1 }
      else
        flushLoop items appended ok (remaining + 1) (attempt + 1)
          (sleeps ++ [1 * (attempt + 1)])

/-- Model of `KlineNode._flush_buffer` for one key.  `buf` is the buffer content at
entry (the extracted `klines_to_write`), `appended` the items other tasks
append to the (cleared) buffer while the call is in flight, `ok` the success
profile of the successive `bulk_insert_klines` attempts.  `max_retries = 3`. -/
def flush_buffer (buf appended : List KlineData) (ok : ℕ → Bool) : FlushResult :=
  if buf.isEmpty then
    -- `if key not in write_buffer or not write_buffer[key]: return`
    { buffer := appended, persisted := [], failureIncrement := 0,
      sleeps := [], attemptsMade := 0 }
  else
    flushLoop buf appended ok 3 0 []

end KlineNode

/-! ## C6 — Incremental SMA (`MACalculator` in `app/indicators/calculators.py`) -/

/-- State of the incremental SMA calculator: `period`, the sliding window
`values` (a `deque(maxlen=period)`), and the running `sum`. -/
structure MACalculator where
  period : ℕ
  values : List ℚ
  sum : ℚ
deriving DecidableEq

/-- Constructor `MACalculator.__init__(period)`. -/
def MACalculator.mkNew (period : ℕ) : MACalculator :=
  { period := period, values := [], sum := 0 }

/-- Method `MACalculator.update(price)`.  If the window is full, the value about to be
evicted is subtracted from the running sum (`self.values[0]` raises on an
empty deque, which can only happen for `period = 0`; that is `none` here);
the new price is appended (the deque drops the oldest element) and the SMA is
returned once the window holds `period` values. -/
def MACalculator.update (s : MACalculator) (price : ℚ) :
    Option (MACalculator × Option ℚ) :=
  if s.values.length = s.period then
    match s.values with
    | [] => none
    | oldest :: rest =>
      let sum := s.sum - oldest + price
      let values := rest ++ [price]
      some ({ period := s.period, values := values, sum := sum },
        if values.length < s.period then none else some (sum / (s.period : ℚ)))
  else
    let sum := s.sum + price
    let values := s.values ++ [price]
    some ({ period := s.period, values := values, sum := sum },
      if values.length < s.period then none else some (sum / (s.period : ℚ)))

/-- Feed a list of prices through `update` from a given state, collecting the
returned outputs (`none` when the calculator raised). -/
def MACalculator.runFrom (s : MACalculator) : List ℚ → Option (List (Option ℚ))
  | [] => some []
  | x :: xs =>
    match s.update x with
    | none => none
    | some (s', out) =>
      match s'.runFrom xs with
      | none => none
      | some outs => some (out :: outs)

/-- Feed a list of prices through a fresh `MACalculator(period)`. -/
def MACalculator.run (period : ℕ) (xs : List ℚ) : Option (List (Option ℚ)) :=
  (MACalculator.mkNew period).runFrom xs

/-- The last `n` elements of a list. -/
def lastN (n : ℕ) (l : List α) : List α := l.drop (l.length - n)

/-! ## C5 — Task progress updates (`TaskManager.update_progress`) -/

namespace TaskManager

/-- Method `TaskManager.update_progress(task_id, progress)`.  Tasks are modelled by
their recorded `progress` value, keyed by id.  Returns the updated task map
and whether a WebSocket notification was fanned out
(`asyncio.create_task(self._notify_websockets(task_id))`). -/
def update_progress (tasks : List (String × ℤ)) (task_id : String)
    (progress : ℤ) : List (String × ℤ) × Bool :=
  match tasks.lookup task_id with
  | none => (tasks, false)            -- `if task_id in self.tasks` fails
  | some old_progress =>
    -- throttle: only push when the progress actually changed
    if progress ≠ old_progress then
      (tasks.map (fun e => if e.1 = task_id then (e.1, progress) else e), true)
    else
      (tasks, false)

end TaskManager

/-! ## C7 — Indicator field validators (`IndicatorData` in
`app/models/indicators.py`) -/

/-- Validator `validate_rsi`: RSI must be in [0, 100], otherwise coerced to None. -/
def validate_rsi (v : Option ℚ) : Option ℚ :=
  match v with
  | none => none
  | some x => if x < 0 ∨ x > 100 then none else some x

/-- Validator `validate_atr`: ATR must be ≥ 0, otherwise coerced to None. -/
def validate_atr (v : Option ℚ) : Option ℚ :=
  match v with
  | none => none
  | some x => if x < 0 then none else some x

/-- Validator `validate_volume`: volume MA must be ≥ 0, otherwise coerced to None. -/
def validate_volume (v : Option ℚ) : Option ℚ :=
  match v with
  | none => none
  | some x => if x < 0 then none else some x

/-- Validator `validate_bollinger`: a band value must be finite within (−1e10, 1e10),
otherwise coerced to None. -/
def validate_bollinger (v : Option ℚ) : Option ℚ :=
  match v with
  | none => none
  | some x => if ¬ (-(10 ^ 10 : ℚ) < x ∧ x < 10 ^ 10) then none else some x

/-- Validator `validate_moving_average`: an MA/EMA value must be > 0, otherwise coerced
to None. -/
def validate_moving_average (v : Option ℚ) : Option ℚ :=
  match v with
  | none => none
  | some x => if x ≤ 0 then none else some x

/-- Pydantic model construction of `IndicatorData`: every field validator runs
on its raw field value.  The MACD fields have no validator. -/
def IndicatorData.build (raw : IndicatorData) : IndicatorData :=
  { raw with
    ma5 := validate_moving_average raw.ma5
    ma10 := validate_moving_average raw.ma10
    ma20 := validate_moving_average raw.ma20
    ma60 := validate_moving_average raw.ma60
    ma120 := validate_moving_average raw.ma120
    ema12 := validate_moving_average raw.ema12
    ema26 := validate_moving_average raw.ema26
    rsi14 := validate_rsi raw.rsi14
    bb_upper := validate_bollinger raw.bb_upper
    bb_middle := validate_bollinger raw.bb_middle
    bb_lower := validate_bollinger raw.bb_lower
    atr14 := validate_atr raw.atr14
    volume_ma5 := validate_volume raw.volume_ma5 }

/-- A raw indicator record used as concrete input: invalid RSI, ATR, MA5 and
upper band; valid MA10. -/
def rawIndicatorExample : IndicatorData :=
  { symbol := "BTCUSDT", timeframe := "1h", timestamp := 1705320000,
    market_type := "future",
    ma5 := some 0, ma10 := some 35050, ma20 := none, ma60 := none,
    ma120 := none, ema12 := none, ema26 := none,
    rsi14 := some 150,
    macd_line := some 150, macd_signal := none, macd_histogram := none,
    bb_upper := some (2 * 10 ^ 10), bb_middle := some 35000, bb_lower := none,
    atr14 := some (-1), volume_ma5 := some 1250 }

/-! ## C3/C10 — Position manager (`app/core/position_manager.py`) -/

/-- An open position as recorded by `PositionManager.open_position`. -/
structure Position where
  side : String
  quantity : ℚ
  usdt_amount : ℚ
  entry_price : ℚ
  entry_time : ℤ
  stop_loss : Option ℚ
  take_profit : Option ℚ
deriving DecidableEq

/-- Order description returned by `calculate_order_size`. -/
structure OrderInfo where
  quantity : ℚ
  usdt_amount : ℚ
  price : ℚ
deriving DecidableEq

/-- Result dict of `close_position`. -/
structure CloseResult where
  pnl : ℚ
  pnl_pct : ℚ
  entry_price : ℚ
  exit_price : ℚ
  entry_time : ℤ
deriving DecidableEq

/-- The `PositionManager` state: balances, risk parameters and the positions dict
(an association list keyed by symbol, first match wins). -/
structure PositionManager where
  initial_balance : ℚ
  current_balance : ℚ
  max_positions : ℕ
  max_exposure_pct : ℚ
  single_position_max_pct : ℚ
  positions : List (String × Position)
deriving DecidableEq

namespace PositionManager

/-- Python dict assignment `positions[symbol] = v`: replace an existing entry
in place, otherwise append. -/
def dictInsert (m : List (String × Position)) (k : String) (v : Position) :
    List (String × Position) :=
  if m.any (fun e => e.1 == k) then
    m.map (fun e => if e.1 = k then (k, v) else e)
  else
    m ++ [(k, v)]

/-- Method `PositionManager.calculate_order_size`.  The sizing strategy is abstract
(`calculate_position_size(signal, kline, indicator, balance, positions)` only
sees the balance and positions here, the other arguments being fixed). -/
def calculate_order_size (pm : PositionManager)
    (sizing : ℚ → List (String × Position) → ℚ)
    (signal : SignalData) : Option OrderInfo :=
  -- 1. check the maximum number of open positions
  if pm.max_positions ≤ pm.positions.length then none
  else
    -- 2. position amount from the sizing strategy
    let position_size_usdt := sizing pm.current_balance pm.positions
    -- 3. single-position cap
    let max_single_position := pm.current_balance * pm.single_position_max_pct
    let position_size_usdt :=
      if position_size_usdt > max_single_position then max_single_position
      else position_size_usdt
    -- 4. total exposure check
    let current_exposure := (pm.positions.map (fun e => e.2.usdt_amount)).sum
    let max_exposure := pm.current_balance * pm.max_exposure_pct
    if current_exposure + position_size_usdt > max_exposure then
      let available := max_exposure - current_exposure
      if available < position_size_usdt * (1 / 2) then none    -- `* 0.5` in source
      else
        -- 5. quantity from the adjusted amount
        some { quantity := available / signal.price,
               usdt_amount := available, price := signal.price }
    else
      some { quantity := position_size_usdt / signal.price,
             usdt_amount := position_size_usdt, price := signal.price }

/-- The order-admission steps transcribed from the specification's wording
(reject at max positions; sizing amount; cap at single_position_max_pct ·
balance; if exposure + amount exceeds max_exposure_pct · balance then
remaining = max_exposure_pct · balance − Σ open USDT, reject when remaining <
half the amount, else the amount becomes remaining; quantity = amount /
price). -/
def order_size_spec (pm : PositionManager)
    (sizing : ℚ → List (String × Position) → ℚ)
    (signal : SignalData) : Option OrderInfo :=
  if pm.positions.length ≥ pm.max_positions then none
  else
    let amount0 := sizing pm.current_balance pm.positions
    let amount := min amount0 (pm.single_position_max_pct * pm.current_balance)
    let exposure := (pm.positions.map (fun e => e.2.usdt_amount)).sum
    if exposure + amount > pm.max_exposure_pct * pm.current_balance then
      let remaining := pm.max_exposure_pct * pm.current_balance - exposure
      if remaining < amount / 2 then none
      else
        some { quantity := remaining / signal.price,
               usdt_amount := remaining, price := signal.price }
    else
      some { quantity := amount / signal.price,
             usdt_amount := amount, price := signal.price }

/-- Method `PositionManager.open_position`. -/
def open_position (pm : PositionManager) (symbol : String)
    (order_info : OrderInfo) (signal : SignalData) : PositionManager :=
  { pm with
    positions := dictInsert pm.positions symbol
      { side := signal.side, quantity := order_info.quantity,
        usdt_amount := order_info.usdt_amount,
        entry_price := order_info.price, entry_time := signal.timestamp,
        stop_loss := signal.stop_loss, take_profit := signal.take_profit }
    current_balance := pm.current_balance - order_info.usdt_amount }

/-- Method `PositionManager.close_position`. -/
def close_position (pm : PositionManager) (symbol : String) (exit_price : ℚ) :
    PositionManager × Option CloseResult :=
  match pm.positions.lookup symbol with
  | none => (pm, none)     -- `if symbol not in self.positions: return {}`
  | some pos =>
    let pnl :=
      if pos.side = "LONG" then (exit_price - pos.entry_price) * pos.quantity
      else (pos.entry_price - exit_price) * pos.quantity
    let pnl_pct := pnl / pos.usdt_amount
    ({ pm with
        current_balance := pm.current_balance + pos.usdt_amount + pnl,
        positions := pm.positions.filter (fun e => !(e.1 == symbol)) },
      some { pnl := pnl, pnl_pct := pnl_pct, entry_price := pos.entry_price,
             exit_price := exit_price, entry_time := pos.entry_time })

end PositionManager

/-- A concrete position manager for witnesses. -/
def pmExample : PositionManager :=
  { initial_balance := 10000, current_balance := 10000, max_positions := 3,
    max_exposure_pct := 8 / 10, single_position_max_pct := 5 / 10,
    positions := [] }

/-- A concrete order for witnesses. -/
def orderExample : OrderInfo :=
  { quantity := 1 / 100, usdt_amount := 500, price := 50000 }

/-- A concrete signal for witnesses. -/
def signalExample : SignalData :=
  { strategy_name := "rsi", symbol := "BTCUSDT", timestamp := 1705320000,
    signal_type := "OPEN_LONG", side := "LONG", price := 50000,
    reason := "RSI oversold", stop_loss := none, take_profit := none }

/-! ## C2 — Strategy runtime (`BaseStrategy.process`) -/

/-- Per-symbol state cache of the strategy runtime:
`{"kline": ..., "indicator": ..., "prev_indicator": ...}`. -/
structure SymbolState where
  kline : Option KlineData
  indicator : Option IndicatorData
  prev_indicator : Option IndicatorData
deriving DecidableEq

/-- Per-symbol position tracking of the strategy runtime. -/
structure PositionTrack where
  has_position : Bool
  side : Option String
  entry_price : Option ℚ
  entry_time : Option ℤ
  highest_price : Option ℚ
  lowest_price : Option ℚ
deriving DecidableEq

/-- The payload of a bus message, already shaped as the model the topic calls
for; a mismatch models the pydantic constructor raising. -/
inductive Payload where
  | kline (k : KlineData)
  | indicator (i : IndicatorData)
deriving DecidableEq

/-- A strategy instance: its symbol universe and the abstract decision
callbacks implemented by subclasses. -/
structure BaseStrategy where
  symbols : List String
  check_entry_signal :
    String → KlineData → IndicatorData → IndicatorData → Option SignalData
  check_exit_signal :
    String → KlineData → IndicatorData → IndicatorData → Option SignalData
  confirm_signal : SignalData → KlineData → IndicatorData → Bool

/-- Observable outcome of one `BaseStrategy.process` call: the new state
cache, the new position table, the emitted signal (if any), and whether the
decision pipeline (entry/exit detection) was evaluated. -/
structure ProcessResult where
  state : String → SymbolState
  positions : String → PositionTrack
  signal : Option SignalData
  evaluated : Bool

/-- A topic is processed as its colon-separated parts,
`parts = topic.split(":")`. -/
def parseSymbol (parts : List String) : String := parts.getD 1 ""

/-- Part `parts[0]` of the colon-separated topic. -/
def parseType (parts : List String) : String := parts.headD ""

/-- The state-cache update for the incoming message: store the bar, or shift
`indicator` into `prev_indicator` and store the new indicator.  `none` models
the pydantic constructor raising on a payload that does not match the topic's
data type. -/
def stateUpdate (data_type : String) (st : SymbolState) (payload : Payload) :
    Option SymbolState :=
  if data_type = "kline" then
    match payload with
    | .kline k => some { st with kline := some k }
    | .indicator _ => none
  else if data_type = "indicator" then
    match payload with
    | .indicator i =>
      some { st with
        prev_indicator :=
          if st.indicator.isSome then st.indicator else st.prev_indicator,
        indicator := some i }
    | .kline _ => none
  else
    some st

/-- The trailing highest/lowest price maintenance (`用于移动止损`) that runs
while a position is held. -/
def updateHL (pos : PositionTrack) (close : ℚ) : PositionTrack :=
  { pos with
    highest_price :=
      match pos.highest_price with
      | some h => if close > h then some close else some h
      | none => none
    lowest_price :=
      match pos.lowest_price with
      | some l => if close < l then some close else some l
      | none => none }

/-- The decision pipeline of `BaseStrategy.process`: with a position, look for
an exit signal; without one, look for an entry signal and run the
confirmation step, opening the tracked position when confirmed.  Runs only
after the alignment checks passed. -/
def runPipeline (strat : BaseStrategy) (state1 : String → SymbolState)
    (positions : String → PositionTrack) (symbol : String) (kline : KlineData)
    (current_indicator prev_indicator : IndicatorData) : ProcessResult :=
  if (positions symbol).has_position then
    match strat.check_exit_signal symbol kline current_indicator prev_indicator with
    | some signal =>
      -- close: has_position := False, side := None; the high/low update is
      -- skipped because the position flag is now cleared
      let pos1 := { positions symbol with has_position := false, side := none }
      { state := state1,
        positions := fun s => if s = symbol then pos1 else positions s,
        signal := some signal, evaluated := true }
    | none =>
      -- still holding: track the highs and lows
      let pos1 := updateHL (positions symbol) kline.close
      { state := state1,
        positions := fun s => if s = symbol then pos1 else positions s,
        signal := none, evaluated := true }
  else
    match strat.check_entry_signal symbol kline current_indicator prev_indicator with
    | some signal =>
      if !strat.confirm_signal signal kline current_indicator then
        -- rejected by confirmation: plain return
        { state := state1, positions := positions, signal := none,
          evaluated := true }
      else
        let pos1 : PositionTrack :=
          { has_position := true, side := some signal.side,
            entry_price := some signal.price,
            entry_time := some signal.timestamp,
            highest_price := some signal.price,
            lowest_price := some signal.price }
        let pos2 := updateHL pos1 kline.close
        { state := state1,
          positions := fun s => if s = symbol then pos2 else positions s,
          signal := some signal, evaluated := true }
    | none =>
      { state := state1, positions := positions, signal := none,
        evaluated := true }

/-- Method `BaseStrategy.process(topic, data)`, the topic given as its
colon-separated parts (`parts = topic.split(":")`).  A malformed topic
returns immediately; an unknown symbol raises `KeyError` at the state access,
caught by the surrounding handler with nothing changed (checked up front
here); the state cache is updated, and the decision pipeline runs only when
bar, indicator and previous indicator are all present and bar and indicator
share the same timestamp. -/
def BaseStrategy.process (strat : BaseStrategy) (state : String → SymbolState)
    (positions : String → PositionTrack) (parts : List String)
    (payload : Payload) : ProcessResult :=
  if parts.length < 3 then
    { state := state, positions := positions, signal := none, evaluated := false }
  else if parseSymbol parts ∈ strat.symbols then
    match stateUpdate (parseType parts) (state (parseSymbol parts)) payload with
    | none =>
      { state := state, positions := positions, signal := none, evaluated := false }
    | some st1 =>
      let state1 := fun s => if s = parseSymbol parts then st1 else state s
      match st1.kline, st1.indicator, st1.prev_indicator with
      | some kline, some current_indicator, some prev_indicator =>
        if kline.timestamp ≠ current_indicator.timestamp then
          { state := state1, positions := positions, signal := none,
            evaluated := false }
        else
          runPipeline strat state1 positions (parseSymbol parts) kline
            current_indicator prev_indicator
      | _, _, _ =>
        { state := state1, positions := positions, signal := none,
          evaluated := false }
  else
    { state := state, positions := positions, signal := none, evaluated := false }

/-- Alignment condition of the claim: bar, indicator and previous indicator
are all stored for the symbol and bar and indicator share the timestamp. -/
def aligned (state : String → SymbolState) (symbol : String) : Prop :=
  ∃ k i p, state symbol = ⟨some k, some i, some p⟩ ∧ k.timestamp = i.timestamp

/-- A concrete strategy for witnesses: one symbol, no signals. -/
def strategyExample : BaseStrategy :=
  { symbols := ["BTCUSDT"],
    check_entry_signal := fun _ _ _ _ => none,
    check_exit_signal := fun _ _ _ _ => none,
    confirm_signal := fun _ _ _ => true }

/-- The empty per-symbol state cache. -/
def stateEmpty : String → SymbolState := fun _ => ⟨none, none, none⟩

/-- The initial position table. -/
def positionsEmpty : String → PositionTrack :=
  fun _ => ⟨false, none, none, none, none, none⟩

/-- A concrete bar for witnesses. -/
def klineExample : KlineData :=
  ⟨"BTCUSDT", "1h", 1705320000, "future", 35000, 35500, 34800, 35200, 1250⟩

/-! ## C8 — Back-test data stream (`BacktestDataSource.get_data_stream`) -/

/-- One element of the merged back-test stream: a bar topic or an indicator
topic with its payload. -/
inductive StreamItem where
  | bar (k : KlineData)
  | indicator (i : IndicatorData)
deriving DecidableEq

/-- The sort key `x[0]`: the element's timestamp. -/
def StreamItem.ts : StreamItem → ℤ
  | .bar k => k.timestamp
  | .indicator i => i.timestamp

/-- The list `all_data` before sorting: for each symbol, its preloaded klines then its
preloaded indicators (`self.kline_data.get(symbol, [])` and
`self.indicator_data.get(symbol, [])`). -/
def mergedData (symbols : List String) (kline_data : String → List KlineData)
    (indicator_data : String → List IndicatorData) : List StreamItem :=
  symbols.flatMap (fun s =>
    (kline_data s).map StreamItem.bar ++
      (indicator_data s).map StreamItem.indicator)

/-- Method `BacktestDataSource.get_data_stream`: build `all_data`, then
`all_data.sort(key=lambda x: x[0])` — a stable sort by timestamp — and yield
in order. -/
def get_data_stream (symbols : List String)
    (kline_data : String → List KlineData)
    (indicator_data : String → List IndicatorData) : List StreamItem :=
  (mergedData symbols kline_data indicator_data).mergeSort
    (fun a b => decide (a.ts ≤ b.ts))

/-- A concrete indicator record with the same timestamp as `klineExample`. -/
def indicatorExample : IndicatorData :=
  { symbol := "BTCUSDT", timeframe := "1h", timestamp := 1705320000,
    market_type := "future",
    ma5 := some 35100, ma10 := some 35050, ma20 := some 35000, ma60 := none,
    ma120 := none, ema12 := none, ema26 := none, rsi14 := some (111 / 2),
    macd_line := none, macd_signal := none, macd_histogram := none,
    bb_upper := some 35500, bb_middle := some 35000, bb_lower := some 34500,
    atr14 := some 120, volume_ma5 := some 1250 }

/-! ## C9 — `check_and_repair_all` keyword interface
(`app/services/data_integrity.py` vs `app/main.py`) -/

namespace DataIntegrityService

/-- The keyword parameters declared by
`DataIntegrityService.check_and_repair_all` in
`app/services/data_integrity.py`. -/
def check_and_repair_all_params : List String :=
  ["symbols", "timeframes", "days_back", "auto_fix", "market_type",
   "repair_kline", "repair_indicator"]

/-- Python keyword-call admission: a call binds only when every supplied
keyword names a declared parameter; otherwise it raises
`TypeError: got an unexpected keyword argument`. -/
def acceptsKeywords (params kwargs : List String) : Bool :=
  kwargs.all (fun k => params.contains k)

/-- The keywords supplied by the startup quick-repair call sites in
`app/main.py` (both the quick and the deep repair pass `klines_count`). -/
def main_startup_repair_kwargs : List String :=
  ["symbols", "timeframes", "days_back", "klines_count", "auto_fix",
   "market_type", "repair_kline", "repair_indicator"]

end DataIntegrityService

/-! # Theorems -/

/-! ## C1 — Cursor monotonicity -/

namespace KlineNode

theorem fetch_incremental_mono (c : ℤ) (dbLast : Option ℤ) (now : ℤ)
    (klines : List KlineData) :
    ∃ y, (fetch_incremental (some c) dbLast now klines).1 = some y ∧ c ≤ y := by
  have ht3 : resolveT3 (some c) dbLast now = c := rfl
  unfold fetch_incremental
  rw [ht3]
  by_cases h : klines.isEmpty
  · exact ⟨c, by simp [h], le_refl c⟩
  · simp only [h, if_false]
    rcases hL : (klines.filter (fun k => decide (c ≤ k.timestamp))).getLast? with _ | last
    · exact ⟨c, by simp [hL], le_refl c⟩
    · refine ⟨last.timestamp, by simp [hL], ?_⟩
      have hmem : last ∈ klines.filter (fun k => decide (c ≤ k.timestamp)) :=
        List.mem_of_mem_getLast? hL
      have := List.of_mem_filter hmem
      simpa using this

theorem cursorTrace_head (cursor : Option ℤ)
    (batches : List (Option ℤ × ℤ × List KlineData)) :
    (cursorTrace cursor batches).head? = some cursor := by
  rcases batches with _ | ⟨⟨dbLast, now, klines⟩, rest⟩ <;> rfl

/-- C1: For every (symbol, timeframe) key, the memory cursor of the bar
producer is non-decreasing across any execution: along the whole cursor
sequence produced by iterating `_fetch_incremental` (filter fetched bars to
those with `ts >= cursor`, then advance the cursor), each steady-state step
only moves the cursor up. -/
theorem cursor_monotone (cursor : Option ℤ)
    (batches : List (Option ℤ × ℤ × List KlineData)) :
    List.Chain' cursorLE (cursorTrace cursor batches) := by
  induction batches generalizing cursor with
  | nil => simp [cursorTrace]
  | cons b rest ih =>
    obtain ⟨dbLast, now, klines⟩ := b
    have tail := ih (fetch_incremental cursor dbLast now klines).1
    rw [cursorTrace]
    apply List.Chain'.cons'
    · exact tail
    · intro z hz x hx
      subst hx
      have hz' : z = (fetch_incremental (some x) dbLast now klines).1 := by
        have hhd := cursorTrace_head (fetch_incremental (some x) dbLast now klines).1 rest
        rw [hhd] at hz
        exact (Option.mem_some_iff.mp hz).symm
      obtain ⟨y, hy, hxy⟩ := fetch_incremental_mono x dbLast now klines
      exact ⟨y, by rw [hz', hy], hxy⟩

/-! ## C4 — Buffer flush retries -/

/-- C4 counterexample: when every `bulk_insert_klines` attempt fails, the
producer performs exactly two backoff sleeps, of 1s and 2s — not three sleeps
of 1s, 2s and 3s as the claim states (there is no sleep after the final
failed attempt). -/
theorem flush_sleeps_counterexample :
    (flush_buffer
        [⟨"BTCUSDT", "1h", 0, "future", 1, 1, 1, 1, 1⟩] []
        (fun _ => false)).sleeps = [1, 2] ∧ [1, 2] ≠ ([1, 2, 3] : List ℕ) := by
  constructor
  · rfl
  · decide

/-- C4 (amended): `_flush_buffer` extracts the buffered items and tries
`bulk_insert_klines` up to 3 times in total, sleeping 1s after a first failed
attempt and 2s after a second (no sleep follows the final attempt).  When all
three attempts fail it increments the flush-failure counter and re-prepends
the extracted items, preserving order, in front of anything appended
meanwhile; when attempt `i` (0-based) is the first to succeed, all extracted
items are persisted, none are re-enqueued, and the sleeps so far are the
first `i` elements of [1s, 2s]. -/
theorem flush_buffer_spec (items appended : List KlineData) (ok : ℕ → Bool)
    (h : items ≠ []) :
    (ok 0 = false → ok 1 = false → ok 2 = false →
      flush_buffer items appended ok =
        { buffer := items ++ appended, persisted := [], failureIncrement := 1,
          sleeps := [1, 2], attemptsMade := 3 }) ∧
    (ok 0 = true →
      flush_buffer items appended ok =
        { buffer := appended, persisted := items, failureIncrement := 0,
          sleeps := [], attemptsMade := 1 }) ∧
    (ok 0 = false → ok 1 = true →
      flush_buffer items appended ok =
        { buffer := appended, persisted := items, failureIncrement := 0,
          sleeps := [1], attemptsMade := 2 }) ∧
    (ok 0 = false → ok 1 = false → ok 2 = true →
      flush_buffer items appended ok =
        { buffer := appended, persisted := items, failureIncrement := 0,
          sleeps := [1, 2], attemptsMade := 3 }) := by
  have hne : items.isEmpty = false := by
    simpa [List.isEmpty_iff] using h
  refine ⟨?_, ?_, ?_, ?_⟩ <;> intros <;>
    simp_all [flush_buffer, flushLoop]

/-- C4 witness: with one buffered bar and a first attempt that fails followed
by a successful second attempt, the bar is persisted, nothing is re-enqueued
and a single 1s sleep happened. -/
theorem flush_buffer_spec_witness :
    flush_buffer [⟨"BTCUSDT", "1h", 0, "future", 1, 1, 1, 1, 1⟩] []
        (fun a => a == 1) =
      { buffer := [], persisted := [⟨"BTCUSDT", "1h", 0, "future", 1, 1, 1, 1, 1⟩],
        failureIncrement := 0, sleeps := [1], attemptsMade := 2 } :=
  (flush_buffer_spec [⟨"BTCUSDT", "1h", 0, "future", 1, 1, 1, 1, 1⟩] []
      (fun a => a == 1) (by decide)).2.2.1 rfl rfl

end KlineNode

/-! ## C6 — SMA outputs -/

theorem lastN_of_length_le (n : ℕ) (l : List α) (h : l.length ≤ n) :
    lastN n l = l := by
  simp [lastN, Nat.sub_eq_zero_of_le h]

theorem lastN_cons_of_length (n : ℕ) (a : α) (l : List α) (h : n ≤ l.length) :
    lastN n (a :: l) = lastN n l := by
  simp only [lastN, List.length_cons]
  rw [show l.length + 1 - n = (l.length - n) + 1 by omega]
  rfl

theorem MACalculator.update_full (p : ℕ) (w : ℚ) (rest : List ℚ) (sum x : ℚ)
    (h : (w :: rest).length = p) :
    MACalculator.update { period := p, values := w :: rest, sum := sum } x =
      some ({ period := p, values := rest ++ [x], sum := sum - w + x },
        if (rest ++ [x]).length < p then none
        else some ((sum - w + x) / (p : ℚ))) := by
  simp [MACalculator.update, h]

theorem MACalculator.update_notFull (p : ℕ) (W : List ℚ) (sum x : ℚ)
    (h : W.length ≠ p) :
    MACalculator.update { period := p, values := W, sum := sum } x =
      some ({ period := p, values := W ++ [x], sum := sum + x },
        if (W ++ [x]).length < p then none
        else some ((sum + x) / (p : ℚ))) := by
  simp [MACalculator.update, h]

theorem MACalculator.runFrom_window (p : ℕ) (hp : 0 < p) (xs : List ℚ)
    (W : List ℚ) (hW : W.length ≤ p) :
    MACalculator.runFrom { period := p, values := W, sum := W.sum } xs =
      some ((List.range xs.length).map (fun j =>
        if W.length + (j + 1) < p then none
        else some ((lastN p (W ++ xs.take (j + 1))).sum / (p : ℚ)))) := by
  induction xs generalizing W with
  | nil => simp [MACalculator.runFrom]
  | cons x xs ih =>
    by_cases hfull : W.length = p
    · -- window already full: evict the oldest value
      rcases W with _ | ⟨w, rest⟩
      · exfalso
        simp only [List.length_nil] at hfull
        omega
      · have hrest : rest.length + 1 = p := by simpa using hfull
        have hlen' : (rest ++ [x]).length = p := by simpa using hrest
        have hsum' : (w :: rest).sum - w + x = (rest ++ [x]).sum := by
          simp only [List.sum_cons, List.sum_append, List.sum_cons, List.sum_nil]
          ring
        rw [MACalculator.runFrom, MACalculator.update_full p w rest _ x hfull]
        rw [if_neg (by rw [hlen']; exact lt_irrefl p), hsum']
        dsimp only
        rw [ih (rest ++ [x]) (le_of_eq hlen')]
        dsimp only
        simp only [List.length_cons, List.range_succ_eq_map, List.map_cons, List.map_map]
        congr 2
        · -- head output: the first new SMA value
          have hcond : ¬ (rest.length + 1 + (0 + 1) < p) := by omega
          rw [if_neg hcond]
          have hwin : lastN p ((w :: rest) ++ (x :: xs).take (0 + 1)) = rest ++ [x] := by
            have heq : (w :: rest) ++ (x :: xs).take (0 + 1) = w :: (rest ++ [x]) := by
              simp
            rw [heq, lastN_cons_of_length p _ _ (le_of_eq hlen'.symm),
              lastN_of_length_le p _ (le_of_eq hlen')]
          rw [hwin]
        · -- tail outputs coincide pointwise
          apply List.map_congr_left
          intro j _
          have hc1 : ¬ ((rest ++ [x]).length + (j + 1) < p) := by
            rw [hlen']; omega
          have hc2 : ¬ (rest.length + 1 + (Nat.succ j + 1) < p) := by omega
          simp only [Function.comp_apply, hc1, hc2, if_false]
          have hwin : lastN p ((w :: rest) ++ (x :: xs).take (Nat.succ j + 1)) =
              lastN p ((rest ++ [x]) ++ xs.take (j + 1)) := by
            have h1 : (w :: rest) ++ (x :: xs).take (Nat.succ j + 1) =
                w :: ((rest ++ [x]) ++ xs.take (j + 1)) := by
              simp [List.take_succ_cons]
            rw [h1]
            apply lastN_cons_of_length
            rw [List.length_append, hlen']
            omega
          rw [hwin]
    · -- window not yet full: plain append
      rw [MACalculator.runFrom, MACalculator.update_notFull p W _ x hfull]
      have hsum' : W.sum + x = (W ++ [x]).sum := by
        simp
      rw [hsum']
      dsimp only
      have hW' : (W ++ [x]).length ≤ p := by
        rw [List.length_append]
        have : W.length < p := lt_of_le_of_ne hW hfull
        simpa using this
      rw [ih (W ++ [x]) hW']
      dsimp only
      simp only [List.length_cons, List.range_succ_eq_map, List.map_cons, List.map_map]
      congr 2
      · -- head output
        have h1 : W ++ (x :: xs).take (0 + 1) = W ++ [x] := by simp
        have h2 : (W ++ [x]).length = W.length + (0 + 1) := by simp
        rw [h1, lastN_of_length_le p _ hW', h2]
      · -- tail outputs coincide pointwise
        apply List.map_congr_left
        intro j _
        have hlen : (W ++ [x]).length + (j + 1) = W.length + (Nat.succ j + 1) := by
          simp; omega
        have hwin : (W ++ [x]) ++ xs.take (j + 1) = W ++ (x :: xs).take (Nat.succ j + 1) := by
          simp [List.take_succ_cons]
        simp only [Function.comp_apply, hlen, hwin]

/-- C6: for every positive period `p`, the incremental SMA calculator never
raises, returns `none` on each update until `p` values have been seen, and
from the `p`-th update on returns the arithmetic mean of the last `p` inputs
(the window `lastN p` of the inputs so far). -/
theorem sma_update_outputs (p : ℕ) (hp : 0 < p) (xs : List ℚ) :
    MACalculator.run p xs =
      some ((List.range xs.length).map (fun i =>
        if i + 1 < p then none
        else some ((lastN p (xs.take (i + 1))).sum / (p : ℚ)))) := by
  have h := MACalculator.runFrom_window p hp xs [] (by simp)
  simpa [MACalculator.run, MACalculator.mkNew] using h

/-- C6 witness (spec scenario S2): feeding closes
[100, 102, 101, 103, 105, 104, 106] into SMA(5) yields
[null, null, null, null, 102.2, 103.0, 103.8]. -/
theorem sma_update_outputs_witness :
    MACalculator.run 5 [100, 102, 101, 103, 105, 104, 106] =
      some [none, none, none, none,
        some (102.2 : ℚ), some (103.0 : ℚ), some (103.8 : ℚ)] :=
  (sma_update_outputs 5 (by decide) [100, 102, 101, 103, 105, 104, 106]).trans
    (by norm_num [List.range_succ, lastN])

/-! ## C5 — Progress fan-out -/

namespace TaskManager

theorem lookup_map_update (tasks : List (String × ℤ)) (task_id : String)
    (p old : ℤ) (h : tasks.lookup task_id = some old) :
    (tasks.map (fun e => if e.1 = task_id then (e.1, p) else e)).lookup task_id
      = some p := by
  induction tasks with
  | nil => simp [List.lookup] at h
  | cons e rest ih =>
    obtain ⟨k, v⟩ := e
    by_cases hk : k = task_id
    · have hf : (if (k, v).1 = task_id then ((k, v).1, p) else (k, v)) = (k, p) := by
        simp [hk]
      rw [List.map_cons, hf]
      simp [List.lookup, hk]
    · have hne : (task_id == k) = false := by
        simp [Ne.symm hk]
      have h' : rest.lookup task_id = some old := by
        simp only [List.lookup, hne] at h
        exact h
      have hf : (if (k, v).1 = task_id then ((k, v).1, p) else (k, v)) = (k, v) := by
        simp [hk]
      rw [List.map_cons, hf]
      simp only [List.lookup, hne]
      exact ih h'

/-- C5 counterexample: with recorded progress 50, `update_progress` with the
lower value 30 still fans out a notification (the code throttles on change,
not on strict increase), refuting both the only-if-strictly-exceeds rule and
the non-decreasing delivery consequence. -/
theorem update_progress_counterexample :
    (update_progress [("task-1", 50)] "task-1" 30).2 = true ∧
      ¬ ((30 : ℤ) > 50) := by
  constructor
  · rfl
  · decide

/-- C5 (amended): `update_progress(task_id, p)` fans out a notification
exactly when the task exists and `p` differs from the last recorded progress
value (in particular also when `p` is lower); on fan-out the recorded value
becomes `p`, and without fan-out the task map is unchanged.  Consecutive
delivered values are therefore pairwise distinct, but not necessarily
non-decreasing. -/
theorem update_progress_spec (tasks : List (String × ℤ)) (task_id : String)
    (p : ℤ) :
    ((update_progress tasks task_id p).2 = true ↔
      ∃ old, tasks.lookup task_id = some old ∧ p ≠ old) ∧
    ((update_progress tasks task_id p).2 = true →
      (update_progress tasks task_id p).1.lookup task_id = some p) ∧
    ((update_progress tasks task_id p).2 = false →
      (update_progress tasks task_id p).1 = tasks) := by
  refine ⟨?_, ?_, ?_⟩
  · constructor
    · intro h
      rcases hl : tasks.lookup task_id with _ | old
      · simp only [update_progress, hl] at h
        simp at h
      · simp only [update_progress, hl] at h
        by_cases hne : p ≠ old
        · exact ⟨old, rfl, hne⟩
        · rw [if_neg hne] at h
          simp at h
    · rintro ⟨old, hl, hne⟩
      simp only [update_progress, hl]
      rw [if_pos hne]
  · intro h
    rcases hl : tasks.lookup task_id with _ | old
    · simp only [update_progress, hl] at h
      simp at h
    · by_cases hne : p ≠ old
      · simp only [update_progress, hl, if_pos hne]
        exact lookup_map_update tasks task_id p old hl
      · simp only [update_progress, hl, if_neg hne] at h
        simp at h
  · intro h
    rcases hl : tasks.lookup task_id with _ | old
    · simp only [update_progress, hl]
    · by_cases hne : p ≠ old
      · simp only [update_progress, hl, if_pos hne] at h
        simp at h
      · simp only [update_progress, hl, if_neg hne]

/-- C5 witness: raising progress from 50 to 80 fans out, records 80, and a
repeated 80 does not fan out. -/
theorem update_progress_spec_witness :
    (update_progress [("task-1", 50)] "task-1" 80).2 = true ∧
      (update_progress [("task-1", 50)] "task-1" 80).1.lookup "task-1" = some 80 :=
  ⟨((update_progress_spec [("task-1", 50)] "task-1" 80).1).mpr
      ⟨50, rfl, by decide⟩,
    (update_progress_spec [("task-1", 50)] "task-1" 80).2.1
      (((update_progress_spec [("task-1", 50)] "task-1" 80).1).mpr
        ⟨50, rfl, by decide⟩)⟩

end TaskManager

/-! ## C7 — Indicator validation -/

theorem validate_rsi_some (x : ℚ) :
    validate_rsi (some x) = if 0 ≤ x ∧ x ≤ 100 then some x else none := by
  simp only [validate_rsi]
  by_cases h : 0 ≤ x ∧ x ≤ 100
  · have hc : ¬ (x < 0 ∨ x > 100) := by
      push_neg
      exact ⟨h.1, h.2⟩
    rw [if_neg hc, if_pos h]
  · have hc : x < 0 ∨ x > 100 := by
      rcases not_and_or.mp h with h1 | h2
      · exact Or.inl (not_le.mp h1)
      · exact Or.inr (not_le.mp h2)
    rw [if_pos hc, if_neg h]

theorem validate_atr_some (x : ℚ) :
    validate_atr (some x) = if 0 ≤ x then some x else none := by
  simp only [validate_atr]
  by_cases h : 0 ≤ x
  · rw [if_neg (not_lt.mpr h), if_pos h]
  · rw [if_pos (not_le.mp h), if_neg h]

theorem validate_moving_average_some (x : ℚ) :
    validate_moving_average (some x) = if 0 < x then some x else none := by
  simp only [validate_moving_average]
  by_cases h : 0 < x
  · rw [if_neg (not_le.mpr h), if_pos h]
  · rw [if_pos (not_lt.mp h), if_neg h]

theorem validate_bollinger_some (x : ℚ) :
    validate_bollinger (some x) =
      if -(10 ^ 10 : ℚ) < x ∧ x < 10 ^ 10 then some x else none := by
  simp only [validate_bollinger, ite_not]

/-- C7: on construction of an indicator vector, each field validator coerces
invalid values to None and passes valid ones through unchanged: RSI outside
[0, 100] becomes None, a negative ATR becomes None, a non-positive MA/EMA
value becomes None, and a Bollinger band value outside the plausible finite
range (−1e10, 1e10) becomes None. -/
theorem indicator_field_validation (raw : IndicatorData) :
    (∀ x, raw.rsi14 = some x →
      (IndicatorData.build raw).rsi14 = if 0 ≤ x ∧ x ≤ 100 then some x else none) ∧
    (∀ x, raw.atr14 = some x →
      (IndicatorData.build raw).atr14 = if 0 ≤ x then some x else none) ∧
    (∀ x, raw.ma5 = some x →
      (IndicatorData.build raw).ma5 = if 0 < x then some x else none) ∧
    (∀ x, raw.ma10 = some x →
      (IndicatorData.build raw).ma10 = if 0 < x then some x else none) ∧
    (∀ x, raw.ma20 = some x →
      (IndicatorData.build raw).ma20 = if 0 < x then some x else none) ∧
    (∀ x, raw.ma60 = some x →
      (IndicatorData.build raw).ma60 = if 0 < x then some x else none) ∧
    (∀ x, raw.ma120 = some x →
      (IndicatorData.build raw).ma120 = if 0 < x then some x else none) ∧
    (∀ x, raw.ema12 = some x →
      (IndicatorData.build raw).ema12 = if 0 < x then some x else none) ∧
    (∀ x, raw.ema26 = some x →
      (IndicatorData.build raw).ema26 = if 0 < x then some x else none) ∧
    (∀ x, raw.bb_upper = some x →
      (IndicatorData.build raw).bb_upper =
        if -(10 ^ 10 : ℚ) < x ∧ x < 10 ^ 10 then some x else none) ∧
    (∀ x, raw.bb_middle = some x →
      (IndicatorData.build raw).bb_middle =
        if -(10 ^ 10 : ℚ) < x ∧ x < 10 ^ 10 then some x else none) ∧
    (∀ x, raw.bb_lower = some x →
      (IndicatorData.build raw).bb_lower =
        if -(10 ^ 10 : ℚ) < x ∧ x < 10 ^ 10 then some x else none) ∧
    (∀ x, raw.volume_ma5 = some x →
      (IndicatorData.build raw).volume_ma5 = if 0 ≤ x then some x else none) := by
  refine ⟨?_, ?_, ?_, ?_, ?_, ?_, ?_, ?_, ?_, ?_, ?_, ?_, ?_⟩ <;>
    intro x hx <;>
    simp only [IndicatorData.build, hx] <;>
    first
      | exact validate_rsi_some x
      | exact validate_atr_some x
      | exact validate_moving_average_some x
      | exact validate_bollinger_some x

/-- C7 witness: on a concrete raw record, RSI 150, ATR −1, MA5 0 and an upper
band of 2·10¹⁰ are all coerced to None, while the valid MA10 value 35050
passes through. -/
theorem indicator_field_validation_witness :
    (IndicatorData.build rawIndicatorExample).rsi14 = none ∧
      (IndicatorData.build rawIndicatorExample).atr14 = none ∧
      (IndicatorData.build rawIndicatorExample).ma5 = none ∧
      (IndicatorData.build rawIndicatorExample).bb_upper = none ∧
      (IndicatorData.build rawIndicatorExample).ma10 = some 35050 := by
  have h := indicator_field_validation rawIndicatorExample
  refine ⟨?_, ?_, ?_, ?_, ?_⟩
  · rw [h.1 150 rfl]
    norm_num
  · rw [h.2.1 (-1) rfl]
    norm_num
  · rw [h.2.2.1 0 rfl]
    norm_num
  · rw [h.2.2.2.2.2.2.2.2.2.1 (2 * 10 ^ 10) rfl]
    norm_num
  · rw [h.2.2.2.1 35050 rfl]
    norm_num

/-! ## C3 — Order admission -/

namespace PositionManager

/-- C3: for every OPEN signal, `calculate_order_size` implements exactly the
specified admission steps: reject at the position-count limit; compute the
sizing amount; cap it at single_position_max_pct · balance; when exposure
plus the amount exceeds max_exposure_pct · balance, compute remaining =
max_exposure_pct · balance − Σ open USDT, reject when remaining is under half
the amount and otherwise replace the amount by remaining; return quantity =
amount / signal.price with the amount and price recorded. -/
theorem calculate_order_size_eq_spec (pm : PositionManager)
    (sizing : ℚ → List (String × Position) → ℚ) (signal : SignalData) :
    calculate_order_size pm sizing signal = order_size_spec pm sizing signal := by
  simp only [calculate_order_size, order_size_spec, ge_iff_le]
  have hA : (if sizing pm.current_balance pm.positions >
        pm.current_balance * pm.single_position_max_pct then
        pm.current_balance * pm.single_position_max_pct
      else sizing pm.current_balance pm.positions) =
      min (sizing pm.current_balance pm.positions)
        (pm.single_position_max_pct * pm.current_balance) := by
    rw [mul_comm pm.single_position_max_pct pm.current_balance]
    rcases le_or_lt (sizing pm.current_balance pm.positions)
        (pm.current_balance * pm.single_position_max_pct) with h | h
    · rw [if_neg (not_lt.mpr h), min_eq_left h]
    · rw [if_pos h, min_eq_right h.le]
  rw [hA, mul_comm pm.current_balance pm.max_exposure_pct, mul_one_div]

end PositionManager

/-! ## C9 — check_and_repair_all keyword interface -/

namespace DataIntegrityService

/-- C9: the repository's own `main.py` call sites pass `klines_count` as the
per-series count budget for indicator repair, but `check_and_repair_all` does
not declare that keyword parameter (it only has the `days_back` time window,
which `detect_indicator_gaps` also uses for indicators), so the documented
two-policy call raises `TypeError: got an unexpected keyword argument
'klines_count'` instead of running both repairs. -/
theorem check_and_repair_all_rejects_klines_count :
    acceptsKeywords check_and_repair_all_params main_startup_repair_kwargs
        = false ∧
      check_and_repair_all_params.contains "klines_count" = false := by
  constructor <;> rfl

end DataIntegrityService

/-! ## C10 — Open/close balance accounting -/

namespace PositionManager

theorem lookup_map_insert (m : List (String × Position)) (k : String)
    (v : Position) (h : m.any (fun e => e.1 == k) = true) :
    (m.map (fun e => if e.1 = k then (k, v) else e)).lookup k = some v := by
  induction m with
  | nil => simp at h
  | cons e rest ih =>
    obtain ⟨k', v'⟩ := e
    by_cases hk : k' = k
    · have hf : (if (k', v').1 = k then (k, v) else (k', v')) = (k, v) := by
        simp [hk]
      rw [List.map_cons, hf]
      simp [List.lookup]
    · have hf : (if (k', v').1 = k then (k, v) else (k', v')) = (k', v') := by
        simp [hk]
      rw [List.map_cons, hf]
      have h' : rest.any (fun e => e.1 == k) = true := by
        simp only [List.any_cons] at h
        rcases Bool.or_eq_true_iff.mp h with h1 | h1
        · exact absurd (by simpa using h1) hk
        · exact h1
      have hne : (k == k') = false := by
        simp [Ne.symm hk]
      simp only [List.lookup, hne]
      exact ih h'

theorem lookup_append_new (m : List (String × Position)) (k : String)
    (v : Position) (h : m.any (fun e => e.1 == k) = false) :
    (m ++ [(k, v)]).lookup k = some v := by
  induction m with
  | nil => simp [List.lookup]
  | cons e rest ih =>
    obtain ⟨k', v'⟩ := e
    simp only [List.any_cons, Bool.or_eq_false_iff] at h
    have hk : ¬ (k' = k) := by
      simpa using h.1
    have hne : (k == k') = false := by
      simp [Ne.symm hk]
    rw [List.cons_append]
    simp only [List.lookup, hne]
    exact ih h.2

theorem lookup_dictInsert (m : List (String × Position)) (k : String)
    (v : Position) : (dictInsert m k v).lookup k = some v := by
  unfold dictInsert
  by_cases h : m.any (fun e => e.1 == k) = true
  · rw [if_pos h]
    exact lookup_map_insert m k v h
  · have h' : m.any (fun e => e.1 == k) = false := Bool.eq_false_iff.mpr h
    have h2 : ¬ (m.any (fun e => e.1 == k) = true) := by
      rw [h']
      exact Bool.false_ne_true
    rw [if_neg h2]
    exact lookup_append_new m k v h'

theorem lookup_filter_out (m : List (String × Position)) (k : String) :
    (m.filter (fun e => !(e.1 == k))).lookup k = none := by
  induction m with
  | nil => rfl
  | cons e rest ih =>
    obtain ⟨k', v'⟩ := e
    by_cases hk : k' = k
    · have hdrop : (!((k', v').1 == k)) = false := by
        simp [hk]
      rw [List.filter_cons_of_neg (by simp [hdrop])]
      exact ih
    · have hkeep : (!((k', v').1 == k)) = true := by
        simp [hk]
      rw [List.filter_cons_of_pos (by simp [hkeep])]
      have hne : (k == k') = false := by
        simp [Ne.symm hk]
      simp only [List.lookup, hne]
      exact ih

/-- C10: opening a position deducts the order's USDT amount from the current
balance; closing it at `exit_price` adds back the recorded amount plus the
signed P&L and removes the symbol from the positions dict, so the balance
after the close equals the balance before the open plus the trade's P&L, and
closing exactly at the entry price restores the original balance. -/
theorem open_close_roundtrip (pm : PositionManager) (symbol : String)
    (order_info : OrderInfo) (signal : SignalData) (exit_price : ℚ) :
    (open_position pm symbol order_info signal).current_balance
        = pm.current_balance - order_info.usdt_amount ∧
    (close_position (open_position pm symbol order_info signal) symbol
        exit_price).1.current_balance
      = pm.current_balance +
          (if signal.side = "LONG" then
            (exit_price - order_info.price) * order_info.quantity
          else (order_info.price - exit_price) * order_info.quantity) ∧
    (close_position (open_position pm symbol order_info signal) symbol
        exit_price).1.positions.lookup symbol = none ∧
    (exit_price = order_info.price →
      (close_position (open_position pm symbol order_info signal) symbol
        exit_price).1.current_balance = pm.current_balance) := by
  have hlook : (dictInsert pm.positions symbol
      { side := signal.side, quantity := order_info.quantity,
        usdt_amount := order_info.usdt_amount,
        entry_price := order_info.price, entry_time := signal.timestamp,
        stop_loss := signal.stop_loss,
        take_profit := signal.take_profit }).lookup symbol
      = some { side := signal.side, quantity := order_info.quantity,
               usdt_amount := order_info.usdt_amount,
               entry_price := order_info.price, entry_time := signal.timestamp,
               stop_loss := signal.stop_loss, take_profit := signal.take_profit } :=
    lookup_dictInsert pm.positions symbol _
  refine ⟨rfl, ?_, ?_, ?_⟩
  · simp only [open_position, close_position, hlook]
    split_ifs with h <;> ring
  · simp only [open_position, close_position, hlook]
    exact lookup_filter_out _ symbol
  · intro hx
    subst hx
    simp only [open_position, close_position, hlook]
    split_ifs with h <;> ring

end PositionManager

/-- C10 witness: opening a LONG position for 500 USDT at 50000 and closing it
at the same price removes the position and restores the balance to 10000
exactly. -/
theorem open_close_roundtrip_witness :
    (PositionManager.close_position
        (PositionManager.open_position pmExample "BTCUSDT" orderExample
          signalExample) "BTCUSDT" 50000).1.current_balance
      = pmExample.current_balance ∧
    (PositionManager.close_position
        (PositionManager.open_position pmExample "BTCUSDT" orderExample
          signalExample) "BTCUSDT" 50000).1.positions.lookup "BTCUSDT" = none :=
  ⟨(PositionManager.open_close_roundtrip pmExample "BTCUSDT" orderExample
      signalExample 50000).2.2.2 rfl,
    (PositionManager.open_close_roundtrip pmExample "BTCUSDT" orderExample
      signalExample 50000).2.2.1⟩

/-! ## C8 — Back-test stream order -/

/-- C8: the back-test data source yields a finite merged stream (a permutation
of the preloaded data built per symbol as bars before indicators) whose
timestamps are non-decreasing, and — the sort by timestamp being stable — any
bar and indicator of the same symbol with equal timestamps appear with the
bar before the indicator; the whole stream is a function of the preloaded
inputs, hence deterministic. -/
theorem backtest_stream_spec (symbols : List String)
    (kline_data : String → List KlineData)
    (indicator_data : String → List IndicatorData) :
    List.Pairwise (fun a b => a.ts ≤ b.ts)
        (get_data_stream symbols kline_data indicator_data) ∧
    (get_data_stream symbols kline_data indicator_data).Perm
        (mergedData symbols kline_data indicator_data) ∧
    (∀ s k i, s ∈ symbols → k ∈ kline_data s → i ∈ indicator_data s →
      k.timestamp = i.timestamp →
      [StreamItem.bar k, StreamItem.indicator i].Sublist
        (get_data_stream symbols kline_data indicator_data)) := by
  have htrans : ∀ a b c : StreamItem, decide (a.ts ≤ b.ts) = true →
      decide (b.ts ≤ c.ts) = true → decide (a.ts ≤ c.ts) = true := by
    intro a b c h1 h2
    simp only [decide_eq_true_eq] at h1 h2 ⊢
    exact le_trans h1 h2
  have htotal : ∀ a b : StreamItem,
      (decide (a.ts ≤ b.ts) || decide (b.ts ≤ a.ts)) = true := by
    intro a b
    simpa using le_total a.ts b.ts
  refine ⟨?_, ?_, ?_⟩
  · have hs := List.sorted_mergeSort htrans htotal
      (mergedData symbols kline_data indicator_data)
    exact hs.imp (fun h => of_decide_eq_true h)
  · exact List.mergeSort_perm _ _
  · intro s k i hs hk hi hts
    have h1 : [StreamItem.bar k].Sublist ((kline_data s).map StreamItem.bar) :=
      List.singleton_sublist.mpr (List.mem_map_of_mem _ hk)
    have h2 : [StreamItem.indicator i].Sublist
        ((indicator_data s).map StreamItem.indicator) :=
      List.singleton_sublist.mpr (List.mem_map_of_mem _ hi)
    have hsub0 : [StreamItem.bar k, StreamItem.indicator i].Sublist
        ((kline_data s).map StreamItem.bar ++
          (indicator_data s).map StreamItem.indicator) :=
      List.Sublist.append h1 h2
    have hsub1 : ((kline_data s).map StreamItem.bar ++
        (indicator_data s).map StreamItem.indicator).Sublist
          (mergedData symbols kline_data indicator_data) := by
      have hm : ((kline_data s).map StreamItem.bar ++
          (indicator_data s).map StreamItem.indicator) ∈
            symbols.map (fun s => (kline_data s).map StreamItem.bar ++
              (indicator_data s).map StreamItem.indicator) :=
        List.mem_map_of_mem _ hs
      simpa [mergedData, List.flatMap] using List.sublist_flatten_of_mem hm
    have hpw : List.Pairwise
        (fun a b => (fun a b : StreamItem => decide (a.ts ≤ b.ts)) a b = true)
        [StreamItem.bar k, StreamItem.indicator i] := by
      simp [StreamItem.ts, hts]
    exact List.sublist_mergeSort htrans htotal hpw (hsub0.trans hsub1)

/-- C8 witness: with one preloaded bar and one indicator at the same
timestamp, the stream yields the bar before the indicator. -/
theorem backtest_stream_spec_witness :
    [StreamItem.bar klineExample, StreamItem.indicator indicatorExample].Sublist
      (get_data_stream ["BTCUSDT"] (fun _ => [klineExample])
        (fun _ => [indicatorExample])) :=
  (backtest_stream_spec ["BTCUSDT"] (fun _ => [klineExample])
      (fun _ => [indicatorExample])).2.2 "BTCUSDT" klineExample indicatorExample
    (by simp) (by simp) (by simp) rfl

/-! ## C2 — Strategy alignment -/

theorem runPipeline_shape (strat : BaseStrategy) (state1 : String → SymbolState)
    (positions : String → PositionTrack) (symbol : String) (kline : KlineData)
    (ci pi : IndicatorData) :
    (runPipeline strat state1 positions symbol kline ci pi).state = state1 ∧
    (runPipeline strat state1 positions symbol kline ci pi).evaluated = true := by
  unfold runPipeline
  cases hpos : (positions symbol).has_position
  · cases hsig : strat.check_entry_signal symbol kline ci pi with
    | none => simp [hpos, hsig]
    | some s =>
      cases hc : strat.confirm_signal s kline ci
      · simp [hpos, hsig, hc]
      · simp [hpos, hsig, hc]
  · cases hsig : strat.check_exit_signal symbol kline ci pi with
    | none => simp [hpos, hsig]
    | some s => simp [hpos, hsig]

theorem process_shape (strat : BaseStrategy) (state : String → SymbolState)
    (positions : String → PositionTrack) (parts : List String)
    (payload : Payload) :
    (∃ state', strat.process state positions parts payload =
        { state := state', positions := positions, signal := none,
          evaluated := false }) ∨
    (∃ st1 kline ci pi, st1.kline = some kline ∧ st1.indicator = some ci ∧
      st1.prev_indicator = some pi ∧ kline.timestamp = ci.timestamp ∧
      strat.process state positions parts payload =
        runPipeline strat
          (fun s => if s = parseSymbol parts then st1 else state s)
          positions (parseSymbol parts) kline ci pi) := by
  unfold BaseStrategy.process
  by_cases hlen : parts.length < 3
  · rw [if_pos hlen]
    exact Or.inl ⟨state, rfl⟩
  · rw [if_neg hlen]
    by_cases hmem : parseSymbol parts ∈ strat.symbols
    · rw [if_pos hmem]
      rcases hupd : stateUpdate (parseType parts) (state (parseSymbol parts))
          payload with _ | st1
      · exact Or.inl ⟨state, by simp only [hupd]⟩
      · rcases hk : st1.kline with _ | kline
        · exact Or.inl ⟨fun s => if s = parseSymbol parts then st1 else state s,
            by simp only [hupd, hk]⟩
        · rcases hi : st1.indicator with _ | ci
          · exact Or.inl ⟨fun s => if s = parseSymbol parts then st1 else state s,
              by simp only [hupd, hk, hi]⟩
          · rcases hp : st1.prev_indicator with _ | pi
            · exact Or.inl
                ⟨fun s => if s = parseSymbol parts then st1 else state s,
                  by simp only [hupd, hk, hi, hp]⟩
            · by_cases hts : kline.timestamp ≠ ci.timestamp
              · exact Or.inl
                  ⟨fun s => if s = parseSymbol parts then st1 else state s,
                    by simp only [hupd, hk, hi, hp, if_pos hts]⟩
              · refine Or.inr ⟨st1, kline, ci, pi, hk, hi, hp,
                  not_ne_iff.mp hts, ?_⟩
                simp only [hupd, hk, hi, hp, if_neg hts]
    · rw [if_neg hmem]
      exact Or.inl ⟨state, rfl⟩

/-- C2: the strategy runtime evaluates the decision pipeline (entry or exit
detection) only when the stored bar, indicator and previous indicator are all
present for the message's symbol and the stored bar and indicator share the
same timestamp; every message for which these conditions fail after the state
update is absorbed without emitting a signal, without touching the position
table, and without evaluating the pipeline. -/
theorem strategy_alignment (strat : BaseStrategy) (state : String → SymbolState)
    (positions : String → PositionTrack) (parts : List String)
    (payload : Payload) :
    ((strat.process state positions parts payload).evaluated = true →
      aligned (strat.process state positions parts payload).state
        (parseSymbol parts)) ∧
    (¬ aligned (strat.process state positions parts payload).state
        (parseSymbol parts) →
      (strat.process state positions parts payload).signal = none ∧
      (strat.process state positions parts payload).positions = positions ∧
      (strat.process state positions parts payload).evaluated = false) := by
  rcases process_shape strat state positions parts payload with
    ⟨state', heq⟩ | ⟨st1, kline, ci, pi, hk, hi, hp, hts, heq⟩
  · constructor
    · intro hev
      rw [heq] at hev
      simp at hev
    · intro _
      rw [heq]
      exact ⟨rfl, rfl, rfl⟩
  · obtain ⟨k0, i0, p0⟩ := st1
    simp only at hk hi hp
    subst hk
    subst hi
    subst hp
    have hshape := runPipeline_shape strat
      (fun s => if s = parseSymbol parts then ⟨some kline, some ci, some pi⟩
        else state s) positions (parseSymbol parts) kline ci pi
    have hal : aligned (strat.process state positions parts payload).state
        (parseSymbol parts) := by
      rw [heq, hshape.1]
      exact ⟨kline, ci, pi, by simp, hts⟩
    constructor
    · intro _
      exact hal
    · intro hnal
      exact absurd hal hnal

/-- C2 witness: a bar message arriving with no stored indicator history is
absorbed: no signal, positions untouched, the pipeline not evaluated. -/
theorem strategy_alignment_witness :
    (strategyExample.process stateEmpty positionsEmpty
        ["kline", "BTCUSDT", "1h"] (Payload.kline klineExample)).signal = none ∧
    (strategyExample.process stateEmpty positionsEmpty
        ["kline", "BTCUSDT", "1h"] (Payload.kline klineExample)).positions
      = positionsEmpty ∧
    (strategyExample.process stateEmpty positionsEmpty
        ["kline", "BTCUSDT", "1h"] (Payload.kline klineExample)).evaluated
      = false :=
  (strategy_alignment strategyExample stateEmpty positionsEmpty
      ["kline", "BTCUSDT", "1h"] (Payload.kline klineExample)).2
    (by
      intro hal
      rcases hal with ⟨k, i, p, hst, _⟩
      have hcomp : (strategyExample.process stateEmpty positionsEmpty
          ["kline", "BTCUSDT", "1h"] (Payload.kline klineExample)).state
            (parseSymbol ["kline", "BTCUSDT", "1h"])
          = ⟨some klineExample, none, none⟩ := by
        simp [BaseStrategy.process, stateUpdate, parseSymbol, parseType,
          strategyExample, stateEmpty]
      rw [hcomp] at hst
      simp at hst)
